import Mathlib

/-!
Shallow embedding of the margaret repository (Python) for specification
checking.  Jobs, the priority queue of `computer.py` (including the heap
algorithms of CPython's `heapq`, which `queue.PriorityQueue` uses), the
virtual memory of `core/memory.py`, the cell of `core/cell.py`, the
serialisation formats of `core/formats.py` and the network memory of
`core/netvm.py` are translated into executable Lean definitions, and the
behavioural claims about them are settled as theorems.
-/

namespace Margaret

/-! ## Jobs (computer.py)

A job is a Python dict.  The fields the scheduler itself touches are the
optional `"call"` capability name, the `"time"` and `"pr"` bookkeeping keys
written by `add_queue`, and an opaque payload (modelled by `tag`). -/

/-- A Python string, as its character sequence (capability names). -/
abbrev PyStr := List Char

/-- `str.startswith("_")`: the first character is an underscore (false on
the empty string). -/
def headIsUnderscore : PyStr → Bool
  | [] => false
  | c :: _ => c == '_'

structure Job where
  call : Option PyStr
  tag : Nat
  time : Nat
  pr : Nat
  deriving DecidableEq, Repr, Inhabited

/-! ## PriorityItem and the heap (computer.py / CPython heapq)

`PriorityItem.__lt__` compares `priority` and falls through to `time`
without first checking that the priorities are equal; `lt` transcribes the
method verbatim. -/

structure PriorityItem where
  data : Job
  priority : Nat
  time : Nat
  deriving DecidableEq, Repr, Inhabited

def PriorityItem.lt (a b : PriorityItem) : Bool :=
  if a.priority < b.priority then true
  else if a.time < b.time then true
  else false

def dummyItem : PriorityItem := ⟨default, 0, 0⟩

/-- CPython `heapq._siftdown(heap, startpos, pos)`; `newitem` is
`heap[pos]`, read before the loop.  Fuel is `pos`, which strictly
decreases, so the loop never runs out. -/
def siftdownLoop : Array PriorityItem → Nat → Nat → PriorityItem → Nat →
    Array PriorityItem
  | heap, _, pos, newitem, 0 => heap.setD pos newitem
  | heap, startpos, pos, newitem, fuel + 1 =>
    if startpos < pos then
      let parentpos := (pos - 1) / 2
      let parent := heap.getD parentpos dummyItem
      if PriorityItem.lt newitem parent then
        siftdownLoop (heap.setD pos parent) startpos parentpos newitem fuel
      else heap.setD pos newitem
    else heap.setD pos newitem

/-- CPython `heapq.heappush`. -/
def heappush (heap : Array PriorityItem) (item : PriorityItem) :
    Array PriorityItem :=
  siftdownLoop (heap.push item) 0 heap.size item heap.size

/-- The descending phase of CPython `heapq._siftup`: repeatedly promote the
smaller child (per `PriorityItem.lt`), returning the heap and the final
leaf position.  Fuel is the heap size; `pos` at least doubles each
iteration. -/
def siftupLoop : Array PriorityItem → Nat → Nat → Array PriorityItem × Nat
  | heap, pos, 0 => (heap, pos)
  | heap, pos, fuel + 1 =>
    let childpos := 2 * pos + 1
    if childpos < heap.size then
      let rightpos := childpos + 1
      let childpos :=
        if rightpos < heap.size &&
            !(PriorityItem.lt (heap.getD childpos dummyItem)
              (heap.getD rightpos dummyItem)) then
          rightpos
        else childpos
      siftupLoop (heap.setD pos (heap.getD childpos dummyItem)) childpos fuel
    else (heap, pos)

/-- CPython `heapq.heappop`: returns `none` on an empty heap (where
`queue.PriorityQueue.get` would block). -/
def heappop (heap : Array PriorityItem) :
    Option (PriorityItem × Array PriorityItem) :=
  if heap.size = 0 then none
  else
    let lastelt := heap.getD (heap.size - 1) dummyItem
    let rest := heap.pop
    if rest.size = 0 then some (lastelt, rest)
    else
      let returnitem := rest.getD 0 dummyItem
      let rest := rest.setD 0 lastelt
      let walked := siftupLoop rest 0 rest.size
      let rest := walked.1.setD walked.2 lastelt
      let rest := siftdownLoop rest 0 walked.2 lastelt walked.2
      some (returnitem, rest)

/-- Pop every element of the heap in queue order. -/
def drainHeap : Array PriorityItem → Nat → List PriorityItem
  | _, 0 => []
  | heap, fuel + 1 =>
    match heappop heap with
    | none => []
    | some (x, rest) => x :: drainHeap rest fuel

/-- Submit jobs with the given priorities in list order; submission time is
the submission index (strictly increasing, as `time.time()` is between
successive `put` calls). -/
def submitAll (prios : List Nat) : Array PriorityItem :=
  prios.enum.foldl (fun h tp => heappush h ⟨default, tp.2, tp.1⟩) #[]

/-- The priorities in the order the scheduler's `run` loop dequeues them. -/
def dequeuePriorities (prios : List Nat) : List Nat :=
  (drainHeap (submitAll prios) prios.length).map PriorityItem.priority

/-! ## Numpy arrays and the virtual memory (core/memory.py)

An ndarray is modelled by its shape, its dtype and its flat element list;
element values are the non-negative bit patterns of the elements, each
below `256 ^ itemsize`.  A slot of the memory holds `none` (Python `None`)
or such an array. -/

inductive DType
  | float32
  | int32
  | uint8
  deriving DecidableEq, Repr, Inhabited

def DType.itemsize : DType → Nat
  | .float32 => 4
  | .int32 => 4
  | .uint8 => 1

structure NDArray where
  shape : List Nat
  dtype : DType
  data : List Nat
  deriving DecidableEq, Repr, Inhabited

/-- `numpy.ndarray.nbytes` = number of elements × element size. -/
def NDArray.nbytes (a : NDArray) : Nat :=
  a.shape.prod * a.dtype.itemsize

structure VirtualMemory where
  slot : Nat
  mem : List (Option NDArray)
  deriving DecidableEq, Repr

/-- `VirtualMemory.__init__` / `clear()`. -/
def VirtualMemory.clear (slot : Nat) : VirtualMemory :=
  ⟨slot, List.replicate slot none⟩

/-- `VirtualMemory.__typecheck(data, memory)`: `data` must be an ndarray
(`none` models a non-ndarray value such as Python `None`), and when the
slot is set, dtype and shape must both match. -/
def typecheck (data : Option NDArray) (memory : Option NDArray) : Bool :=
  match data with
  | none => false
  | some d =>
    match memory with
    | none => true
    | some m => m.dtype == d.dtype && m.shape == d.shape

/-- `VirtualMemory.read(slot)` (slot index assumed in range, as in the
deque). -/
def VirtualMemory.read (vm : VirtualMemory) (slot : Nat) : Option NDArray :=
  vm.mem.getD slot none

structure TypeError where
  deriving DecidableEq, Repr

/-- `VirtualMemory.write(slot, data, force)`, transcribed verbatim: the
guard is `if force and not self.__typecheck(...)`, so the typecheck runs
only when `force` is true. -/
def VirtualMemory.write (vm : VirtualMemory) (slot : Nat)
    (data : Option NDArray) (force : Bool) : Except TypeError VirtualMemory :=
  if force && !typecheck data (vm.read slot) then .error ⟨⟩
  else .ok { vm with mem := vm.mem.set slot data }

def exceptOk {ε α : Type} : Except ε α → Bool
  | .ok _ => true
  | .error _ => false

/-- `VirtualMemory.shape()`: per slot, `(shape, dtype)` when set, else
`None`. -/
def VirtualMemory.shapeInfo (vm : VirtualMemory) :
    List (Option (List Nat × DType)) :=
  vm.mem.map (fun o => o.map (fun a => (a.shape, a.dtype)))

/-- `VirtualMemory.is_shape_equal(memory)`: length check on the shape
tuples, then elementwise equality over their zip. -/
def isShapeEqual (a b : VirtualMemory) : Bool :=
  if a.shapeInfo.length ≠ b.shapeInfo.length then false
  else (a.shapeInfo.zip b.shapeInfo).all (fun p => p.1 == p.2)

/-! ## Serialisation (core/formats.py) and dump/load -/

/-- Little-endian byte encoding of an element bit pattern, `k` bytes. -/
def natToLE : Nat → Nat → List Nat
  | 0, _ => []
  | k + 1, v => v % 256 :: natToLE k (v / 256)

def leToNat : List Nat → Nat
  | [] => 0
  | b :: rest => b + 256 * leToNat rest

/-- Split a raw byte buffer into `k`-byte elements (`numpy.frombuffer`).
Fuel is the buffer length. -/
def bytesToElemsGo (k : Nat) : Nat → List Nat → List Nat
  | 0, _ => []
  | _ + 1, [] => []
  | fuel + 1, l => leToNat (l.take k) :: bytesToElemsGo k fuel (l.drop k)

def bytesToElems (k : Nat) (l : List Nat) : List Nat :=
  bytesToElemsGo k l.length l

/-- `numpy.ndarray.tobytes()`. -/
def NDArray.tobytes (a : NDArray) : List Nat :=
  a.data.flatMap (natToLE a.dtype.itemsize)

/-- One record of the slot-store interchange format:
`{"array": raw bytes, "dtype": tag, "shape": shape}`. -/
structure NpEncoded where
  array : List Nat
  dtype : DType
  shape : List Nat
  deriving DecidableEq, Repr

/-- `NumpyFormat.encode`: `_typecheck` raises `TypeError` unless the value
is an ndarray, so an unset slot cannot be encoded. -/
def NumpyFormat.encode (a : Option NDArray) : Except TypeError NpEncoded :=
  match a with
  | none => .error ⟨⟩
  | some arr => .ok ⟨arr.tobytes, arr.dtype, arr.shape⟩

/-- `NumpyFormat.decode`: `np.frombuffer(item["array"], item["dtype"])`
then `reshape(item["shape"])`. -/
def NumpyFormat.decode (e : NpEncoded) : NDArray :=
  ⟨e.shape, e.dtype, bytesToElems e.dtype.itemsize e.array⟩

/-- The list comprehension of `VirtualMemory.dump()`: encode the slots
left to right, propagating the first raised `TypeError`. -/
def encodeSlots : List (Option NDArray) → Except TypeError (List NpEncoded)
  | [] => .ok []
  | o :: rest =>
    match NumpyFormat.encode o with
    | .error e => .error e
    | .ok enc =>
      match encodeSlots rest with
      | .error e => .error e
      | .ok encs => .ok (enc :: encs)

/-- `VirtualMemory.dump()`: encodes every slot in order; the first unset
slot raises. -/
def VirtualMemory.dump (vm : VirtualMemory) :
    Except TypeError (List NpEncoded) :=
  encodeSlots vm.mem

/-- `VirtualMemory.load(item_list)`: decodes every record and resets the
slot counter to the list length. -/
def loadVM (items : List NpEncoded) : VirtualMemory :=
  ⟨items.length, items.map (fun e => some (NumpyFormat.decode e))⟩

/-! ## Cell (core/cell.py)

`CellMem` is the memory wiring of a cell (`source`, `drain`).  The
transform hooks and the model are passed to `cellCycle` separately so that
the wiring state stays decidable. -/

structure CellMem where
  source : VirtualMemory
  drain : VirtualMemory
  deriving DecidableEq, Repr

/-- `Cell.connect(mem, before)`, transcribed verbatim: the shape-equality
test is always `self.source.is_shape_equal(mem)`, whichever side is being
replaced. -/
def connect (c : CellMem) (mem : VirtualMemory) (before : Bool) :
    Bool × CellMem :=
  if isShapeEqual c.source mem = false then (false, c)
  else if before then (true, { c with source := mem })
  else (true, { c with drain := mem })

inductive CellErr
  | unboundLocal
  | typeErr
  deriving DecidableEq, Repr

/-- One iteration of `Cell.run` after the gate is raised, transcribed
verbatim: read slot 0 of `source`, apply the `fetch` hook when set, call
the model, and then — only when the `writeback` hook is set — bind the
local `writeback`; the following `self.drain.write(0, writeback)` reads
that local, so when the hook is unset the name is unbound
(`UnboundLocalError`, modelled by `CellErr.unboundLocal`). -/
def cellCycle (model : Option NDArray → Option NDArray)
    (fetchHook writebackHook : Option (Option NDArray → Option NDArray))
    (c : CellMem) : Except CellErr CellMem :=
  let fetched := c.source.read 0
  let fetched := match fetchHook with
    | some f => f fetched
    | none => fetched
  let excuted := model fetched
  match writebackHook with
  | none => .error .unboundLocal
  | some f =>
    match c.drain.write 0 (f excuted) false with
    | .ok d => .ok { c with drain := d }
    | .error _ => .error .typeErr

/-! ## Network virtual memory (core/netvm.py) -/

/-- Modelled from the spec: `NumpyRawFormat.decode(data, shape, dtype)` is
imported by `netvm.py` from `core/formats.py` but is absent from the
source tree; per the spec's datagram contract it reinterprets a raw
fixed-length byte buffer as an array of the given shape and element
type. -/
def NumpyRawFormat.decode (data : List Nat) (shape : List Nat)
    (dtype : DType) : NDArray :=
  ⟨shape, dtype, bytesToElems dtype.itemsize data⟩

structure Datagram where
  data : List Nat
  addr : Nat × Nat
  deriving DecidableEq, Repr

/-- One received datagram in `NetVM.resv(slot)` (the slot's shape/dtype
accessor used on the accept path is likewise absent from the source tree
and is modelled from the spec as the stored array's shape and dtype).
Returns `none` when the slot is unset (where the Python loop would fault
reading `.nbytes` of `None`); otherwise the updated memory and the
argument of the receive callback: `some (array, addr)` exactly when the
datagram was accepted. -/
def resvStep (vm : VirtualMemory) (slot : Nat) (dg : Datagram) :
    Option (VirtualMemory × Option (NDArray × (Nat × Nat))) :=
  match vm.read slot with
  | none => none
  | some a =>
    if dg.data.length ≠ a.nbytes then some (vm, none)
    else
      let arr := NumpyRawFormat.decode dg.data a.shape a.dtype
      match vm.write slot (some arr) false with
      | .ok vm2 => some (vm2, some (arr, dg.addr))
      | .error _ => none

/-! ## Scheduler execution (computer.py)

`compute : Job → Except Unit (Option Output)` stands for
`Computer._compute`: `.error ()` is a raised exception, `.ok none` a
`None` return, `.ok (some out)` a dict result with its optional `"loop"`
flag and optional `"info"` map. -/

structure Output where
  loop : Bool
  info : Option (List (String × Nat))
  deriving DecidableEq, Repr

structure RunResult where
  jobIn : Job
  jobOut : Option Output
  deriving DecidableEq, Repr

inductive Event
  | accept (j : Job)
  | reject (j : Job)
  | result (r : RunResult)
  | send (r : RunResult)
  deriving DecidableEq, Repr

/-- Scheduler state: the `__datacnt` counter, the priority queue's heap,
and the trace of fired callbacks. -/
structure CState where
  datacnt : Nat
  heap : Array PriorityItem
  events : List Event
  deriving DecidableEq, Repr

/-- `Computer._check_job(job)` on a dict job: an absent `"call"` key passes;
a present one must not start with an underscore and must name a callable
member of the compute unit (`model name = some true`; `some false` is a
non-callable member, `none` an absent one). -/
def checkJob (model : PyStr → Option Bool) (j : Job) : Bool :=
  match j.call with
  | none => true
  | some name =>
    if headIsUnderscore name then false
    else
      match model name with
      | some true => true
      | _ => false

/-- `Computer.add_queue(job, priority)`: on a passing check, stamp the
job's `"time"` and `"pr"` keys, push a `PriorityItem` and fire `accept`;
otherwise fire `reject`.  `now` is the `time.time()` value. -/
def addQueue (model : PyStr → Option Bool) (st : CState) (j : Job)
    (priority : Nat) (now : Nat) : Bool × CState :=
  if checkJob model j then
    let j2 := { j with time := now, pr := priority }
    (true, { st with heap := heappush st.heap ⟨j2, priority, now⟩,
                     events := st.events ++ [.accept j2] })
  else
    (false, { st with events := st.events ++ [.reject j] })

/-- `dict.update` on an association list: replace the first binding of the
key, or append. -/
def assocSet : List (String × Nat) → String → Nat → List (String × Nat)
  | [], k, v => [(k, v)]
  | (k2, v2) :: rest, k, v =>
    if k2 = k then (k, v) :: rest else (k2, v2) :: assocSet rest k v

/-- `Computer._exec_queue(job)`: bump `__datacnt`, call the compute unit
(a raised exception propagates), and for a non-`None` output re-enqueue a
copy of the job at priority 10 when the `"loop"` flag is truthy, then
annotate `output["info"]` with `datacnt` and `process_time` — a `KeyError`
when the output has no `"info"` key, since `output.get("info", {})` does
not insert one.  `ptime` is the measured wall-clock duration. -/
def execQueue (model : PyStr → Option Bool)
    (compute : Job → Except Unit (Option Output)) (st : CState) (j : Job)
    (ptime now : Nat) : CState × Except Unit RunResult :=
  let st := { st with datacnt := st.datacnt + 1 }
  let d := st.datacnt
  match compute j with
  | .error e => (st, .error e)
  | .ok none => (st, .ok ⟨j, none⟩)
  | .ok (some out) =>
    let st := if out.loop then (addQueue model st j 10 now).2 else st
    match out.info with
    | none => (st, .error ())
    | some info =>
      let info := assocSet (assocSet info "datacnt" d) "process_time" ptime
      (st, .ok ⟨j, some ⟨out.loop, some info⟩⟩)

/-- One iteration of `Computer.run`: pop the minimum entry (`none` when the
queue is empty and `get` blocks), execute it, fire `result`
unconditionally, fire `send` when `job_out` is not `None`.  The `Bool` is
true when an exception escaped the iteration and killed the thread. -/
def runStep (model : PyStr → Option Bool)
    (compute : Job → Except Unit (Option Output)) (st : CState)
    (ptime now : Nat) : Option (CState × Bool) :=
  match heappop st.heap with
  | none => none
  | some (item, rest) =>
    let st1 := { st with heap := rest }
    let out := execQueue model compute st1 item.data ptime now
    match out.2 with
    | .error _ => some (out.1, true)
    | .ok r =>
      let st3 := { out.1 with events := out.1.events ++ [.result r] }
      let st4 :=
        if r.jobOut.isSome then { st3 with events := st3.events ++ [.send r] }
        else st3
      some (st4, false)

/-- The thread loop: iterate `runStep` until the queue is empty (`none`:
blocked), the fuel runs out, or an exception escapes; the `Bool` is true
when the thread died on an exception. -/
def runLoop (model : PyStr → Option Bool)
    (compute : Job → Except Unit (Option Output)) :
    CState → Nat → CState × Bool
  | st, 0 => (st, false)
  | st, fuel + 1 =>
    match runStep model compute st fuel fuel with
    | none => (st, false)
    | some (st2, true) => (st2, true)
    | some (st2, false) => runLoop model compute st2 fuel

/-! ## Concrete instances used by the claim theorems -/

/-- A capability-free job with payload id `t`. -/
def mkJob (t : Nat) : Job := ⟨none, t, 0, 0⟩

/-- Three equal-priority jobs queued in submission order 1, 2, 3. -/
def c3Heap : Array PriorityItem :=
  heappush (heappush (heappush #[] ⟨mkJob 1, 3, 0⟩) ⟨mkJob 2, 3, 1⟩)
    ⟨mkJob 3, 3, 2⟩

/-- A compute unit that raises on payload 2 and returns `None` otherwise. -/
def c3Compute (j : Job) : Except Unit (Option Output) :=
  if j.tag = 2 then .error () else .ok none

/-- A compute unit exposing no members. -/
def noMember : PyStr → Option Bool := fun _ => none

def c6Heap : Array PriorityItem := heappush #[] ⟨mkJob 7, 3, 0⟩

def computeNone : Job → Except Unit (Option Output) := fun _ => .ok none

def computeOut : Job → Except Unit (Option Output) :=
  fun _ => .ok (some ⟨false, some [("loss", 1)]⟩)

def computeLoop : Job → Except Unit (Option Output) :=
  fun _ => .ok (some ⟨true, some []⟩)

/-- A compute unit returning a non-null output with no `"info"` key. -/
def computeNoInfo : Job → Except Unit (Option Output) :=
  fun _ => .ok (some ⟨false, none⟩)

/-- A store whose one slot is pre-seeded with a (3,3) float32 array. -/
def seededVM : VirtualMemory :=
  ⟨1, [some ⟨[3, 3], .float32, List.replicate 9 0⟩]⟩

/-- An incoming value of mismatched shape (3,4), same element type. -/
def mismatched : Option NDArray := some ⟨[3, 4], .float32, List.replicate 12 0⟩

/-- One-slot stores holding arrays of shape (3) and (4) respectively. -/
def vmShape3 : VirtualMemory := ⟨1, [some ⟨[3], .float32, [0, 0, 0]⟩]⟩

def vmShape4 : VirtualMemory := ⟨1, [some ⟨[4], .float32, [0, 0, 0, 0]⟩]⟩

/-- A cell whose source holds shape (3) and whose drain holds shape (4). -/
def cellDemo : CellMem := ⟨vmShape3, vmShape4⟩

def c5Model : Option NDArray → Option NDArray := fun _ => some ⟨[1], .uint8, [5]⟩

def c5Cell : CellMem := ⟨VirtualMemory.clear 1, VirtualMemory.clear 1⟩

/-- A compute unit exposing `_hidden` as a callable member. -/
def hiddenName : PyStr := ['_', 'h', 'i', 'd', 'd', 'e', 'n']

def c9Model : PyStr → Option Bool :=
  fun s => if s = hiddenName then some true else none

def c9Job : Job := ⟨some hiddenName, 0, 0, 0⟩

/-- A store with its single slot unset. -/
def unsetVM : VirtualMemory := ⟨1, [none]⟩

/-- A fully set two-slot store for the round-trip witness. -/
def roundVM : VirtualMemory :=
  ⟨2, [some ⟨[2], .uint8, [7, 9]⟩, some ⟨[1], .int32, [300]⟩]⟩

/-- A one-slot store holding a (2,) uint8 array, so 2 expected bytes. -/
def netVMDemo : VirtualMemory := ⟨1, [some ⟨[2], .uint8, [7, 9]⟩]⟩

def shortDatagram : Datagram := ⟨[1], (9, 9)⟩

def exactDatagram : Datagram := ⟨[4, 5], (9, 9)⟩

/-! ## Helper lemmas -/

theorem size_siftdownLoop (heap : Array PriorityItem) (startpos pos : Nat)
    (newitem : PriorityItem) (fuel : Nat) :
    (siftdownLoop heap startpos pos newitem fuel).size = heap.size := by
  induction fuel generalizing heap pos with
  | zero => simp [siftdownLoop, Array.size_setD]
  | succ fuel ih =>
    simp only [siftdownLoop]
    split
    · split
      · rw [ih, Array.size_setD]
      · exact Array.size_setD ..
    · exact Array.size_setD ..

theorem size_heappush (heap : Array PriorityItem) (item : PriorityItem) :
    (heappush heap item).size = heap.size + 1 := by
  unfold heappush
  rw [size_siftdownLoop, Array.size_push]

theorem length_natToLE (k v : Nat) : (natToLE k v).length = k := by
  induction k generalizing v with
  | zero => rfl
  | succ k ih => simp [natToLE, ih]

theorem leToNat_natToLE (k v : Nat) (h : v < 256 ^ k) :
    leToNat (natToLE k v) = v := by
  induction k generalizing v with
  | zero =>
    interval_cases v
    rfl
  | succ k ih =>
    have hdiv : v / 256 < 256 ^ k := by
      rw [Nat.div_lt_iff_lt_mul (by norm_num : 0 < 256)]
      calc v < 256 ^ (k + 1) := h
        _ = 256 ^ k * 256 := by ring
    simp only [natToLE, leToNat, ih (v / 256) hdiv]
    exact Nat.mod_add_div v 256

theorem length_flatMap_natToLE (k : Nat) (xs : List Nat) :
    (xs.flatMap (natToLE k)).length = k * xs.length := by
  induction xs with
  | nil => simp
  | cons x xs ih =>
    simp [List.flatMap_cons, ih, length_natToLE, Nat.mul_succ, Nat.add_comm]

theorem bytesToElemsGo_cons (k fuel b : Nat) (l : List Nat) :
    bytesToElemsGo k (fuel + 1) (b :: l) =
      leToNat ((b :: l).take k) :: bytesToElemsGo k fuel ((b :: l).drop k) :=
  rfl

theorem bytesToElemsGo_flat (k : Nat) (hk : 0 < k) (xs : List Nat) :
    ∀ fuel : Nat, xs.length ≤ fuel → (∀ x ∈ xs, x < 256 ^ k) →
      bytesToElemsGo k fuel (xs.flatMap (natToLE k)) = xs := by
  induction xs with
  | nil =>
    intro fuel _ _
    cases fuel <;> rfl
  | cons x xs ih =>
    intro fuel hfuel hbound
    obtain ⟨f, rfl⟩ : ∃ f, fuel = f + 1 := by
      cases fuel with
      | zero => exact absurd hfuel (by simp)
      | succ f => exact ⟨f, rfl⟩
    obtain ⟨k2, rfl⟩ : ∃ k2, k = k2 + 1 := by
      cases k with
      | zero => exact absurd hk (by simp)
      | succ k2 => exact ⟨k2, rfl⟩
    have hx : x < 256 ^ (k2 + 1) := hbound x (by simp)
    have hflat : (x :: xs).flatMap (natToLE (k2 + 1)) =
        x % 256 :: (natToLE k2 (x / 256) ++ xs.flatMap (natToLE (k2 + 1))) := by
      simp [List.flatMap_cons, natToLE]
    have hlen2 : (natToLE k2 (x / 256)).length = k2 := length_natToLE ..
    have htake : (natToLE k2 (x / 256) ++ xs.flatMap (natToLE (k2 + 1))).take k2 =
        natToLE k2 (x / 256) := by
      have h3 := List.take_left (natToLE k2 (x / 256))
        (xs.flatMap (natToLE (k2 + 1)))
      rwa [hlen2] at h3
    have hdrop : (natToLE k2 (x / 256) ++ xs.flatMap (natToLE (k2 + 1))).drop k2 =
        xs.flatMap (natToLE (k2 + 1)) := by
      have h3 := List.drop_left (natToLE k2 (x / 256))
        (xs.flatMap (natToLE (k2 + 1)))
      rwa [hlen2] at h3
    have hhead : leToNat (x % 256 :: natToLE k2 (x / 256)) = x := by
      have h2 := leToNat_natToLE (k2 + 1) x hx
      simpa [natToLE] using h2
    rw [hflat, bytesToElemsGo_cons, List.take_succ_cons, List.drop_succ_cons,
      htake, hdrop, hhead,
      ih f (by simpa using hfuel)
        (fun y hy => hbound y (List.mem_cons_of_mem x hy))]

theorem bytesToElems_tobytes (a : NDArray)
    (hbound : ∀ x ∈ a.data, x < 256 ^ a.dtype.itemsize) :
    bytesToElems a.dtype.itemsize a.tobytes = a.data := by
  have hk : 0 < a.dtype.itemsize := by cases a.dtype <;> simp [DType.itemsize]
  unfold bytesToElems NDArray.tobytes
  rw [length_flatMap_natToLE]
  exact bytesToElemsGo_flat a.dtype.itemsize hk a.data
    (a.dtype.itemsize * a.data.length)
    (Nat.le_mul_of_pos_left a.data.length hk) hbound

theorem decode_encode (a : NDArray)
    (hbound : ∀ x ∈ a.data, x < 256 ^ a.dtype.itemsize) :
    NumpyFormat.decode ⟨a.tobytes, a.dtype, a.shape⟩ = a := by
  unfold NumpyFormat.decode
  rw [bytesToElems_tobytes a hbound]

/-- Round-trip of the slot encoding: for lists of set, bounded slots,
`encodeSlots` succeeds and decoding the records restores the slots. -/
theorem encodeSlots_roundtrip (l : List (Option NDArray))
    (hset : ∀ o ∈ l, ∃ a, o = some a ∧
      ∀ x ∈ a.data, x < 256 ^ a.dtype.itemsize) :
    ∃ items : List NpEncoded, encodeSlots l = .ok items ∧
      items.map (fun e => some (NumpyFormat.decode e)) = l ∧
      items.length = l.length := by
  induction l with
  | nil => exact ⟨[], rfl, rfl, rfl⟩
  | cons o l ih =>
    obtain ⟨a, rfl, hbound⟩ := hset o (by simp)
    obtain ⟨items, hmap, hdec, hlen⟩ :=
      ih (fun o2 ho2 => hset o2 (List.mem_cons_of_mem _ ho2))
    refine ⟨⟨a.tobytes, a.dtype, a.shape⟩ :: items, ?_, ?_, by simp [hlen]⟩
    · unfold encodeSlots
      rw [hmap]
      rfl
    · simp [hdec, decode_encode a hbound]

/-! ## Claim theorems -/

/-- C1: the claim fails on the code, which contradicts the documented
sort-key intent: `PriorityItem.__lt__` falls through to the `time`
comparison without requiring equal priorities, so the comparator is not
even asymmetric on entries with distinct submission times, and for four
jobs submitted with priorities 1, 3, 2, 2 at times 0, 1, 2, 3 the run loop
dequeues the priority-3 job before both priority-2 jobs. -/
theorem dequeue_violates_priority_order :
    PriorityItem.lt ⟨default, 2, 0⟩ ⟨default, 1, 1⟩ = true ∧
    PriorityItem.lt ⟨default, 1, 1⟩ ⟨default, 2, 0⟩ = true ∧
    dequeuePriorities [1, 3, 2, 2] = [1, 3, 2, 2] ∧
    ¬ List.Sorted (· ≤ ·) (dequeuePriorities [1, 3, 2, 2]) := by
  decide

/-- C2: the claim fails on the code, whose guard is inverted
(`if force and not typecheck`): on a slot pre-seeded with shape (3,3)
float32, the strict-mode write of a (3,4) float32 value succeeds and
rebinds the slot, while the force-mode write raises the type error. -/
theorem write_force_guard_inverted :
    seededVM.write 0 mismatched false = .ok ⟨1, [mismatched]⟩ ∧
    seededVM.write 0 mismatched true = .error ⟨⟩ ∧
    typecheck mismatched (seededVM.read 0) = false :=
  ⟨rfl, rfl, rfl⟩

/-- C3: the claim fails on the code: `Computer.run` calls `_exec_queue`
with no exception handling, so with three queued jobs of which the second
raises, the loop performs only two executions, the thread dies (the `true`
flag), and the third job is left in the queue unprocessed. -/
theorem raising_job_terminates_run_loop :
    runLoop noMember c3Compute ⟨0, c3Heap, []⟩ 10 =
      (⟨2, #[⟨mkJob 3, 3, 2⟩], [.result ⟨mkJob 1, none⟩]⟩, true) := by
  decide

/-- C4 counterexample: `Cell.connect` tests `self.source.is_shape_equal`
whichever side is replaced, so a store shape-equal to the drain (the side
being replaced, `before = false`) but not to the source is refused and
nothing is rebound — the claim says this call must succeed and rebind the
drain. -/
theorem connect_ignores_drain_shape :
    isShapeEqual cellDemo.drain vmShape4 = true ∧
    isShapeEqual cellDemo.source vmShape4 = false ∧
    connect cellDemo vmShape4 false = (false, cellDemo) := by
  decide

/-- C4 amended: `connect(store, before)` rebinds `source` when `before`
and `drain` otherwise, but only if `store` is shape-equal to `source`
(always the source side, whichever side is replaced); otherwise it returns
false and mutates neither side. -/
theorem connect_checks_source_shape (c : CellMem) (mem : VirtualMemory)
    (before : Bool) :
    connect c mem before =
      if isShapeEqual c.source mem then
        (true,
          if before then { c with source := mem } else { c with drain := mem })
      else (false, c) := by
  unfold connect
  cases h : isShapeEqual c.source mem <;> cases before <;> simp [h]

/-- C5: the claim fails on the code: the run loop's local `writeback` is
bound only inside `if self._writeback is not None`, so a cell with no
writeback transform faults with `UnboundLocalError` instead of writing the
compute output to the drain; with a transform registered (here the
identity) the cycle completes and writes the transformed compute output to
slot 0 of the drain. -/
theorem cell_cycle_unbound_writeback :
    cellCycle c5Model none none c5Cell = .error .unboundLocal ∧
    cellCycle c5Model none (some id) c5Cell =
      .ok ⟨VirtualMemory.clear 1, ⟨1, [some ⟨[1], .uint8, [5]⟩]⟩⟩ := by
  exact ⟨rfl, rfl⟩

/-- C6 counterexample: for a job whose execution returns `None`, the run
loop still fires the `result` callback (with a null `job_out`) — the claim
says no result callback fires; and for a job whose execution returns a
non-null output with no `"info"` key, `output["info"].update(...)` raises
`KeyError`, the iteration dies with no annotation and no `result` callback
— the claim says every non-null result is annotated and handed to the
result callback. -/
theorem result_callback_divergence :
    runStep noMember computeNone ⟨0, c6Heap, []⟩ 5 6 =
      some (⟨1, #[], [.result ⟨mkJob 7, none⟩]⟩, false) ∧
    runStep noMember computeNoInfo ⟨0, c6Heap, []⟩ 5 6 =
      some (⟨1, #[], []⟩, true) := by
  decide

/-- C6 amended: a null compute result updates only the progress counter
and still fires the `result` callback with a null `job_out` (no annotation
and no `send`); a non-null result carrying an `info` map — continuable or
not, so possibly after the loop re-enqueue — is annotated with the
strictly increased sequence counter `datacnt + 1` and the elapsed time,
and both the `result` and the `send` callbacks fire with it; a non-null
result without an `info` map raises at the annotation step, killing the
iteration with no annotation and neither callback. -/
theorem run_step_callbacks (model : PyStr → Option Bool)
    (compute : Job → Except Unit (Option Output)) (st : CState)
    (ptime now : Nat) (item : PriorityItem) (rest : Array PriorityItem)
    (hpop : heappop st.heap = some (item, rest)) :
    (compute item.data = .ok none →
      runStep model compute st ptime now =
        some ({ st with datacnt := st.datacnt + 1, heap := rest,
                        events := st.events ++ [.result ⟨item.data, none⟩] },
              false)) ∧
    (∀ out info, compute item.data = .ok (some out) → out.info = some info →
      runStep model compute st ptime now =
        (let stMid :=
          if out.loop then
            (addQueue model { st with datacnt := st.datacnt + 1, heap := rest }
              item.data 10 now).2
          else { st with datacnt := st.datacnt + 1, heap := rest }
        let r : RunResult := ⟨item.data, some ⟨out.loop,
          some (assocSet (assocSet info "datacnt" (st.datacnt + 1))
            "process_time" ptime)⟩⟩
        some ({ stMid with events := stMid.events ++ [.result r, .send r] },
              false))) ∧
    (∀ out, compute item.data = .ok (some out) → out.info = none →
      runStep model compute st ptime now =
        (let stMid :=
          if out.loop then
            (addQueue model { st with datacnt := st.datacnt + 1, heap := rest }
              item.data 10 now).2
          else { st with datacnt := st.datacnt + 1, heap := rest }
        some (stMid, true))) := by
  refine ⟨?_, ?_, ?_⟩
  · intro hc
    unfold runStep
    rw [hpop]
    unfold execQueue
    simp [hc]
  · intro out info hc hinfo
    obtain ⟨lp, inf⟩ := out
    simp only at hinfo
    subst hinfo
    unfold runStep
    rw [hpop]
    unfold execQueue
    cases lp <;> simp [hc]
  · intro out hc hinfo
    obtain ⟨lp, inf⟩ := out
    simp only at hinfo
    subst hinfo
    unfold runStep
    rw [hpop]
    unfold execQueue
    cases lp <;> simp [hc]

/-- Witness for the amended C6 theorem at a concrete one-job queue, once
with a non-null, non-continuable output carrying an info map and once with
a continuable one (annotated and handed to both callbacks after the
priority-10 re-enqueue). -/
theorem run_step_callbacks_witness :
    runStep noMember computeOut ⟨0, c6Heap, []⟩ 5 6 =
      some (⟨1, #[], [.result ⟨mkJob 7, some ⟨false,
          some [("loss", 1), ("datacnt", 1), ("process_time", 5)]⟩⟩,
        .send ⟨mkJob 7, some ⟨false,
          some [("loss", 1), ("datacnt", 1), ("process_time", 5)]⟩⟩]⟩,
       false) ∧
    runStep noMember computeLoop ⟨0, c6Heap, []⟩ 5 6 =
      some (⟨1, #[⟨⟨none, 7, 6, 10⟩, 10, 6⟩],
        [.accept ⟨none, 7, 6, 10⟩,
         .result ⟨mkJob 7, some ⟨true,
           some [("datacnt", 1), ("process_time", 5)]⟩⟩,
         .send ⟨mkJob 7, some ⟨true,
           some [("datacnt", 1), ("process_time", 5)]⟩⟩]⟩,
       false) := by
  constructor
  · rw [(run_step_callbacks noMember computeOut ⟨0, c6Heap, []⟩ 5 6
      ⟨mkJob 7, 3, 0⟩ #[] (by decide)).2.1 ⟨false, some [("loss", 1)]⟩
      [("loss", 1)] rfl rfl]
    rfl
  · rw [(run_step_callbacks noMember computeLoop ⟨0, c6Heap, []⟩ 5 6
      ⟨mkJob 7, 3, 0⟩ #[] (by decide)).2.1 ⟨true, some []⟩ [] rfl rfl]
    rfl

/-- C7: a completed execution cycle whose non-null output carries a truthy
`loop` flag pushes exactly one new entry onto the priority queue, carrying
the same job payload restamped at priority 10 (so the queue grows by
exactly one); a cycle whose output is null or not flagged continuable
leaves the queue untouched. -/
theorem continuable_resubmits_once (model : PyStr → Option Bool)
    (compute : Job → Except Unit (Option Output)) (st : CState) (j : Job)
    (ptime now : Nat) (hchk : checkJob model j = true) :
    (∀ out, compute j = .ok (some out) → out.loop = true →
      (execQueue model compute st j ptime now).1.heap =
        heappush st.heap ⟨{ j with time := now, pr := 10 }, 10, now⟩ ∧
      (execQueue model compute st j ptime now).1.heap.size =
        st.heap.size + 1) ∧
    (∀ out, compute j = .ok (some out) → out.loop = false →
      (execQueue model compute st j ptime now).1.heap = st.heap) ∧
    (compute j = .ok none →
      (execQueue model compute st j ptime now).1.heap = st.heap) := by
  refine ⟨?_, ?_, ?_⟩
  · intro out hc hloop
    obtain ⟨lp, inf⟩ := out
    simp only at hloop
    subst hloop
    unfold execQueue
    rw [hc]
    unfold addQueue
    rw [hchk]
    cases inf <;> simp [size_heappush]
  · intro out hc hloop
    obtain ⟨lp, inf⟩ := out
    simp only at hloop
    subst hloop
    unfold execQueue
    rw [hc]
    cases inf <;> simp
  · intro hc
    unfold execQueue
    rw [hc]

/-- Witness for the C7 theorem: a continuable cycle on a one-job queue
pushes exactly one restamped priority-10 entry. -/
theorem continuable_resubmits_once_witness :
    (execQueue noMember computeLoop ⟨0, c6Heap, []⟩ (mkJob 7) 5 6).1.heap =
      heappush c6Heap ⟨{ mkJob 7 with time := 6, pr := 10 }, 10, 6⟩ ∧
    (execQueue noMember computeLoop ⟨0, c6Heap, []⟩ (mkJob 7) 5 6).1.heap.size =
      c6Heap.size + 1 :=
  (continuable_resubmits_once noMember computeLoop ⟨0, c6Heap, []⟩ (mkJob 7)
    5 6 rfl).1 ⟨true, some []⟩ rfl rfl

/-- C8: a datagram arriving at a set listener slot is accepted, decoded
with the slot's shape and element type, written into the slot, and handed
to the receive callback with the sender address, exactly when its byte
length equals the slot's expected byte size; a datagram of any other
length leaves the store unchanged and fires no callback. -/
theorem datagram_length_gate (vm : VirtualMemory) (slot : Nat)
    (dg : Datagram) (a : NDArray) (hread : vm.read slot = some a) :
    (dg.data.length ≠ a.nbytes → resvStep vm slot dg = some (vm, none)) ∧
    (dg.data.length = a.nbytes →
      resvStep vm slot dg = some
        ({ vm with
            mem := vm.mem.set slot
                (some (NumpyRawFormat.decode dg.data a.shape a.dtype)) },
         some (NumpyRawFormat.decode dg.data a.shape a.dtype, dg.addr))) := by
  constructor
  · intro hne
    unfold resvStep
    rw [hread]
    simp [hne]
  · intro heq
    unfold resvStep
    rw [hread]
    simp [heq, VirtualMemory.write]

/-- Witness for the C8 theorem on a slot expecting 2 bytes: a 1-byte
datagram is dropped with the store unchanged, and a 2-byte datagram is
decoded, written and handed to the callback. -/
theorem datagram_length_gate_witness :
    resvStep netVMDemo 0 shortDatagram = some (netVMDemo, none) ∧
    resvStep netVMDemo 0 exactDatagram = some
      (⟨1, [some ⟨[2], .uint8, [4, 5]⟩]⟩,
       some (⟨[2], .uint8, [4, 5]⟩, (9, 9))) := by
  constructor
  · exact (datagram_length_gate netVMDemo 0 shortDatagram
      ⟨[2], .uint8, [7, 9]⟩ rfl).1 (by decide)
  · rw [(datagram_length_gate netVMDemo 0 exactDatagram
      ⟨[2], .uint8, [7, 9]⟩ rfl).2 (by decide)]
    rfl

/-- C9: a job whose capability name begins with an underscore is rejected
by `add_queue` — it returns false, fires only the `reject` callback and
enqueues nothing — independently of the compute unit; and any accepted job
with a capability present names a non-underscore-prefixed callable member
of the compute unit. -/
theorem underscore_capability_rejected (model : PyStr → Option Bool)
    (st : CState) (j : Job) (priority now : Nat) :
    (∀ s, j.call = some s → headIsUnderscore s = true →
      addQueue model st j priority now =
        (false, { st with events := st.events ++ [.reject j] })) ∧
    ((addQueue model st j priority now).1 = true →
      ∀ s, j.call = some s →
        headIsUnderscore s = false ∧ model s = some true) := by
  constructor
  · intro s hcall hund
    obtain ⟨c, tg, tm, pr⟩ := j
    simp only at hcall
    subst hcall
    have hchk : checkJob model ⟨some s, tg, tm, pr⟩ = false := by
      simp [checkJob, hund]
    unfold addQueue
    rw [hchk]
    simp
  · intro hacc s hcall
    obtain ⟨c, tg, tm, pr⟩ := j
    simp only at hcall
    subst hcall
    unfold addQueue at hacc
    cases hchk : checkJob model ⟨some s, tg, tm, pr⟩ with
    | false => rw [hchk] at hacc; simp at hacc
    | true =>
      cases hund : headIsUnderscore s with
      | true => simp [checkJob, hund] at hchk
      | false =>
        refine ⟨rfl, ?_⟩
        cases hm : model s with
        | none => simp [checkJob, hund, hm] at hchk
        | some b =>
          cases b with
          | false => simp [checkJob, hund, hm] at hchk
          | true => rfl

/-- Witness for the C9 theorem: a job naming `_hidden` is rejected by a
compute unit that does expose `_hidden` as a callable member. -/
theorem underscore_capability_rejected_witness :
    addQueue c9Model ⟨0, #[], []⟩ c9Job 3 0 =
      (false, ⟨0, #[], [.reject c9Job]⟩) ∧
    c9Model hiddenName = some true := by
  constructor
  · exact (underscore_capability_rejected c9Model ⟨0, #[], []⟩ c9Job 3 0).1
      hiddenName rfl (by decide)
  · rfl

/-- C10 counterexample: `dump()` encodes each slot with
`NumpyFormat.encode`, whose typecheck raises on a non-ndarray, so a store
with an unset slot raises a `TypeError` instead of serialising every slot
as the claim states. -/
theorem dump_raises_on_unset_slot :
    unsetVM.dump = .error ⟨⟩ :=
  rfl

/-- C10 amended: `dump()` serialises every *set* slot as
`(rawBytes, elementTypeTag, shape)` and raises on any unset slot; for a
store whose slots are all set (with element bit patterns within the dtype
width and the slot counter equal to the slot-list length), `load(dump())`
reproduces the store. -/
theorem dump_load_roundtrip (vm : VirtualMemory)
    (hslot : vm.slot = vm.mem.length)
    (hset : ∀ o ∈ vm.mem, ∃ a, o = some a ∧
      ∀ x ∈ a.data, x < 256 ^ a.dtype.itemsize) :
    ∃ items, vm.dump = .ok items ∧ loadVM items = vm := by
  obtain ⟨items, hmap, hdec, hlen⟩ := encodeSlots_roundtrip vm.mem hset
  refine ⟨items, hmap, ?_⟩
  unfold loadVM
  obtain ⟨slot, mem⟩ := vm
  simp only at hslot hdec hlen
  subst hslot
  simp [hdec, hlen]

/-- Witness for the amended C10 theorem: a fully set two-slot store
(uint8 and int32 slots) dumps successfully and reloads to itself. -/
theorem dump_load_roundtrip_witness :
    ∃ items, roundVM.dump = .ok items ∧ loadVM items = roundVM := by
  refine dump_load_roundtrip roundVM rfl ?_
  intro o ho
  simp only [roundVM, List.mem_cons, List.mem_singleton,
    List.not_mem_nil, or_false] at ho
  rcases ho with rfl | rfl
  · exact ⟨_, rfl, by decide⟩
  · exact ⟨_, rfl, by decide⟩

end Margaret
